import Mathlib

/-!
Verification of the GoPro media-database decoder (`gopro_mdb_parser.py`,
`mco_page_analyzer.py`) against its natural-language specification.

The input file is modelled as an immutable byte buffer: a length together
with an index function giving the byte value at each in-range index
(bytes are `Nat` values in `[0, 255]` on real inputs; the readers below
never look at an index `≥ size`, which is proved as part of claim C8).
All multi-byte reads are little-endian, mirroring `struct.unpack('<…')`.
-/

namespace GoproMdb

/-- Immutable byte buffer: `size` is the file length, `byte i` the value of
`data[i]` for `i < size` (values at `i ≥ size` are irrelevant: the
bounds-checked readers never consult them). -/
structure Buf where
  size : Nat
  byte : Nat → Nat

/-- Embeds `GoproMDBParser._read_u8`: `data[offset] if offset < len(data) else 0`. -/
def Buf.readU8 (b : Buf) (off : Nat) : Nat :=
  if off < b.size then b.byte off else 0

/-- Embeds `GoproMDBParser._read_u16`: little-endian u16, 0 when out of bounds. -/
def Buf.readU16 (b : Buf) (off : Nat) : Nat :=
  if off + 2 ≤ b.size then b.byte off + 256 * b.byte (off + 1) else 0

/-- Embeds `GoproMDBParser._read_u32`: little-endian u32, 0 when out of bounds. -/
def Buf.readU32 (b : Buf) (off : Nat) : Nat :=
  if off + 4 ≤ b.size then
    b.byte off + 256 * b.byte (off + 1) + 65536 * b.byte (off + 2) +
      16777216 * b.byte (off + 3)
  else 0

/-- Embeds `GoproMDBParser._read_u64`: little-endian u64, 0 when out of bounds. -/
def Buf.readU64 (b : Buf) (off : Nat) : Nat :=
  if off + 8 ≤ b.size then
    b.byte off + 256 * b.byte (off + 1) + 65536 * b.byte (off + 2) +
      16777216 * b.byte (off + 3) + 4294967296 * b.byte (off + 4) +
      1099511627776 * b.byte (off + 5) + 281474976710656 * b.byte (off + 6) +
      72057594037927936 * b.byte (off + 7)
  else 0

/-- Embeds `GoproMDBParser._read_i32`: little-endian i32 (two's complement),
0 when out of bounds. -/
def Buf.readI32 (b : Buf) (off : Nat) : Int :=
  if off + 4 ≤ b.size then
    let u := b.byte off + 256 * b.byte (off + 1) + 65536 * b.byte (off + 2) +
      16777216 * b.byte (off + 3)
    if u < 2147483648 then (u : Int) else (u : Int) - 4294967296
  else 0

/-- Embeds `GoproMDBParser._read_f32` at the bit level: the little-endian u32
bit pattern of the IEEE-754 float (the IEEE value mapping itself is not
modelled; the out-of-bounds default `0.0` corresponds to the zero bit
pattern). -/
def Buf.readF32bits (b : Buf) (off : Nat) : Nat :=
  b.readU32 off

/-- Embeds `GoproMDBParser._read_f64` at the bit level (see `readF32bits`). -/
def Buf.readF64bits (b : Buf) (off : Nat) : Nat :=
  b.readU64 off

/-- Slice `data[start:stop]` for `start ≤ stop ≤ size` (the only way the
parser slices): a view of the same bytes. -/
def Buf.slice (b : Buf) (start stop : Nat) : Buf :=
  { size := stop - start, byte := fun i => b.byte (start + i) }

/-- Does `pat` match the bytes of `b` starting at index `i`?  (Helper for
Python's `pat in data` substring test; callers keep `i + pat.length ≤ size`.) -/
def matchAt (b : Buf) : List Nat → Nat → Bool
  | [], _ => true
  | p :: ps, i => (b.byte i == p) && matchAt b ps (i + 1)

/-- Is `f` true somewhere on `[lo, lo + n)`?  Computed by binary splitting
(the `fuel` argument, always called with `fuel = n`, only bounds the
recursion depth) so that concrete evaluation has logarithmic stack depth. -/
def anyInRange (f : Nat → Bool) : (fuel lo n : Nat) → Bool
  | 0, _, _ => false
  | fuel + 1, lo, n =>
    if n = 0 then false
    else if n = 1 then f lo
    else anyInRange f fuel lo (n / 2) || anyInRange f fuel (lo + n / 2) (n - n / 2)

/-- Embeds Python's `pat in data` byte-substring test: does `pat` match at
some start position in `[0, size + 1 - pat.length)`? -/
def containsBytes (b : Buf) (pat : List Nat) : Bool :=
  anyInRange (fun i => matchAt b pat i) (b.size + 1 - pat.length) 0
    (b.size + 1 - pat.length)

/-- Schema generations, as detected by `GoproMDBParser._detect_schema`
(`hero11plus` is the spec's G_NEW, `hero5to8` the spec's G_OLD). -/
inductive SchemaVersion where
  | hero11plus
  | hero9to10
  | hero5to8
  | legacy
deriving DecidableEq

/-- ASCII bytes of `"camera_model"`. -/
def cameraModelPat : List Nat := [99, 97, 109, 101, 114, 97, 95, 109, 111, 100, 101, 108]

/-- ASCII bytes of `"vmoment"`. -/
def vmomentPat : List Nat := [118, 109, 111, 109, 101, 110, 116]

/-- ASCII bytes of `"vtag"`. -/
def vtagPat : List Nat := [118, 116, 97, 103]

/-- Embeds `GoproMDBParser._detect_schema`: string probes over the whole
buffer select the schema generation. -/
def detectSchema (b : Buf) : SchemaVersion :=
  if containsBytes b cameraModelPat then
    if containsBytes b vmomentPat then .hero11plus else .hero9to10
  else if containsBytes b vtagPat then .hero5to8
  else .legacy

/-- Embeds the `DateField` dataclass (year stored as offset from 1980). -/
structure DateField where
  year : Nat := 0
  month : Nat := 0
  day : Nat := 0
deriving DecidableEq

/-- Embeds the `TimeField` dataclass (note: minute before hour). -/
structure TimeField where
  min : Nat := 0
  hour : Nat := 0
  second : Nat := 0
deriving DecidableEq

/-- Embeds the `DateTime` dataclass (7 bytes on disk). -/
structure DateTime where
  dt : DateField := {}
  tm : TimeField := {}
deriving DecidableEq

/-- Embeds `GoproMDBParser._read_datetime_from_buffer`: 7 bytes at `offset`
(year u16, month, day, min, hour, second); an all-zero `DateTime` when fewer
than 7 bytes remain. -/
def readDatetimeFromBuffer (b : Buf) (off : Nat) : DateTime :=
  if off + 7 ≤ b.size then
    { dt := { year := b.byte off + 256 * b.byte (off + 1)
              month := b.byte (off + 2)
              day := b.byte (off + 3) }
      tm := { min := b.byte (off + 4)
              hour := b.byte (off + 5)
              second := b.byte (off + 6) } }
  else {}

/-- Embeds the `datetime_to_dict` helper inside `GoproMDBParser.to_dict`.
The `formatted` JSON string is modelled by the tuple of numbers it renders
(`actual_year, month, day, hour, minute, second`); `none` models JSON null. -/
structure DatetimeDict where
  year : Nat
  actual_year : Nat
  month : Nat
  day : Nat
  hour : Nat
  minute : Nat
  second : Nat
  formatted : Option (Nat × Nat × Nat × Nat × Nat × Nat)
deriving DecidableEq

/-- Embeds `datetime_to_dict`. -/
def datetimeToDict (d : DateTime) : DatetimeDict :=
  let actualYear := if 0 < d.dt.year then d.dt.year + 1980 else 0
  { year := d.dt.year
    actual_year := actualYear
    month := d.dt.month
    day := d.dt.day
    hour := d.tm.hour
    minute := d.tm.min
    second := d.tm.second
    formatted :=
      if 0 < actualYear then
        some (actualYear, d.dt.month, d.dt.day, d.tm.hour, d.tm.min, d.tm.second)
      else none }

/-- Zero-padded decimal rendering, as Python's `"%03d" % n` / `f"{n:04d}"`
for nonnegative `n`. -/
def padNum (w n : Nat) : String :=
  let s := toString n
  if s.length < w then String.mk (List.replicate (w - s.length) '0') ++ s else s

/-- Result of `decode_file_handle`. -/
structure FileHandleInfo where
  directory : String
  file_number : Nat
  type_flag : Nat
  estimated_path : String
deriving DecidableEq

/-- Embeds the module-level `decode_file_handle`. -/
def decodeFileHandle (fh : Nat) : FileHandleInfo :=
  let dirNo := (fh >>> 32) &&& 0xFF
  let fileNo := fh &&& 0xFFFF
  let typeFlag := (fh >>> 56) &&& 0xFF
  let filename := "GX" ++ toString 0 ++ padNum 4 fileNo ++ ".MP4"
  { directory := padNum 3 dirNo ++ "GOPRO"
    file_number := fileNo
    type_flag := typeFlag
    estimated_path := padNum 3 dirNo ++ "GOPRO/" ++ filename }

/-- Splits a byte list into its maximal runs of printable ASCII (32..126),
in order; helper for the record decoders' `read_string`. -/
def printableRunsAux : List Nat → List Nat → List (List Nat)
  | [], cur => if cur.isEmpty then [] else [cur.reverse]
  | x :: xs, cur =>
    if 32 ≤ x ∧ x < 127 then printableRunsAux xs (x :: cur)
    else if cur.isEmpty then printableRunsAux xs []
    else cur.reverse :: printableRunsAux xs []

/-- Maximal printable-ASCII runs of a byte list. -/
def printableRuns (l : List Nat) : List (List Nat) :=
  printableRunsAux l []

/-- Python `str.strip()` on a printable run (only the space byte 32 is
whitespace inside a printable run). -/
def stripSpaces (l : List Nat) : List Nat :=
  ((l.dropWhile (· == 32)).reverse.dropWhile (· == 32)).reverse

/-- Renders a list of ASCII byte values as a string. -/
def bytesToString (l : List Nat) : String :=
  String.mk (l.map (fun n => Char.ofNat n))

/-- Embeds the `read_string` closure of `_parse_single_ex_data`: read at
unpacked offset `uOff` (+8 OID prefix), clamp `maxLen` to the slice, extract
printable segments, strip them, drop segments shorter than `minSeg`, and
join the rest with single spaces. -/
def readString (d : Buf) (uOff maxLen minSeg : Nat) : String :=
  let off := uOff + 8
  let mlen := if d.size < off + maxLen then d.size - off else maxLen
  let raw := (List.range mlen).map (fun i => d.byte (off + i))
  let segs := ((printableRuns raw).map stripSpaces).filter (fun s => minSeg ≤ s.length)
  String.intercalate " " ((segs.map bytesToString).filter (fun s => ¬ s = ""))

/-- Embeds the `MdbSingleEx` dataclass, restricted to the fields that
`_parse_single_ex_data` actually populates (field defaults mirror the
dataclass defaults).  `max_moment_score_bits` carries the raw u32 bit
pattern of the `f32` field (IEEE decoding is not modelled). -/
structure MdbSingleEx where
  duration : Nat := 0
  size : Nat := 0
  file_handle : Nat := 0
  media_status : Nat := 0
  file_type_ex : Nat := 0
  max_moment_score_bits : Nat := 0
  moment_cnt : Nat := 0
  ctm : DateTime := {}
  tag_cnt : Nat := 0
  chp_cnt : Nat := 0
  grp_no : Nat := 0
  latm : DateTime := {}
  total_tag_cnt : Nat := 0
  dir_no : Nat := 0
  last_scan_time : DateTime := {}
  has_hdr : Nat := 0
  is_clip : Nat := 0
  file_scanned : Nat := 0
  avc_level : Nat := 0
  avc_profile : Nat := 0
  protune_option : Nat := 0
  aud_option : Nat := 0
  has_eis : Nat := 0
  f_meta_present : Nat := 0
  projection : Nat := 0
  lens_config : Nat := 0
  camera_model : String := ""
  sub_model : String := ""
deriving DecidableEq

/-- Embeds `GoproMDBParser._parse_single_ex_data`: `none` for slices under
100 bytes, otherwise the hero11 (G_NEW) unpacked offsets, each shifted by
the 8-byte OID prefix.  The inner `read_uN` closures have exactly the
bounds-checked semantics of `Buf.readUN` on the slice. -/
def parseSingleExData (d : Buf) : Option MdbSingleEx :=
  if d.size < 100 then none
  else some
    { duration := d.readU64 (0 + 8)
      size := d.readU64 (8 + 8)
      file_handle := d.readU64 (16 + 8)
      media_status := d.readU32 (24 + 8)
      file_type_ex := d.readU32 (36 + 8)
      max_moment_score_bits := d.readF32bits (40 + 8)
      moment_cnt := d.readU16 (50 + 8)
      ctm := readDatetimeFromBuffer d (52 + 8)
      tag_cnt := d.readU16 (60 + 8)
      chp_cnt := d.readU16 (62 + 8)
      grp_no := d.readU16 (64 + 8)
      latm := readDatetimeFromBuffer d (66 + 8)
      total_tag_cnt := d.readU16 (74 + 8)
      dir_no := d.readU16 (76 + 8)
      last_scan_time := readDatetimeFromBuffer d (78 + 8)
      has_hdr := d.readU8 (85 + 8)
      is_clip := d.readU8 (86 + 8)
      file_scanned := d.readU8 (87 + 8)
      avc_level := d.readU8 (88 + 8)
      avc_profile := d.readU8 (89 + 8)
      protune_option := d.readU8 (90 + 8)
      aud_option := d.readU8 (91 + 8)
      has_eis := d.readU8 (92 + 8)
      f_meta_present := d.readU8 (93 + 8)
      projection := d.readU8 (94 + 8)
      lens_config := d.readU8 (96 + 8)
      camera_model := readString d 97 30 2
      sub_model := readString d 128 16 2 }

/-- Little-endian value of a byte list (least significant byte first). -/
def leNat (l : List Nat) : Nat :=
  l.foldr (fun b acc => b + 256 * acc) 0

/-- Embeds the `read_bytes` closure of `_parse_grouped_ex_data`: the listed
bytes when fully in bounds, else the empty list. -/
def readBytesAt (d : Buf) (uOff len : Nat) : List Nat :=
  let off := uOff + 8
  if off + len ≤ d.size then (List.range len).map (fun i => d.byte (off + i)) else []

/-- Embeds the `GusiBlob` dataclass. -/
structure GusiBlob where
  raw : List Nat := []
  session_id : Nat := 0
  recording_id : Nat := 0
deriving DecidableEq

/-- Embeds the `ContentBlob` dataclass. -/
structure ContentBlob where
  raw : List Nat := []
  content_id_high : Nat := 0
  content_id_low : Nat := 0
deriving DecidableEq

/-- Embeds the `MdbGroupedEx` dataclass (defaults mirror the dataclass). -/
structure MdbGroupedEx where
  file_handle : Nat := 0
  frame_rate_timescale : Nat := 0
  frame_rate_duration : Nat := 0
  n_elems : Nat := 0
  grp_ctm : DateTime := {}
  grp_no : Nat := 0
  width : Nat := 0
  height : Nat := 0
  frame_rate_duration_indicator : Nat := 0
  frame_rate_timescale_indicator : Nat := 0
  gusi_blob : GusiBlob := {}
  f_is_subsample : Nat := 0
  f_is_progressive : Nat := 0
  f_is_progressive_indicator : Nat := 0
  grp_no_indicator : Nat := 0
  f_is_subsample_indicator : Nat := 0
  blob : ContentBlob := {}
deriving DecidableEq

/-- Embeds `GoproMDBParser._parse_grouped_ex_data`: `none` for slices under
50 bytes, otherwise the hero11 unpacked offsets shifted by the 8-byte OID
prefix. -/
def parseGroupedExData (d : Buf) : Option MdbGroupedEx :=
  if d.size < 50 then none
  else
    let gusiRaw := readBytesAt d 36 16
    let blobRaw := readBytesAt d 57 16
    some
      { file_handle := d.readU64 (0 + 8)
        frame_rate_timescale := d.readU32 (8 + 8)
        frame_rate_duration := d.readU32 (12 + 8)
        n_elems := d.readU32 (16 + 8)
        grp_ctm := readDatetimeFromBuffer d (20 + 8)
        grp_no := d.readU16 (28 + 8)
        width := d.readU16 (30 + 8)
        height := d.readU16 (32 + 8)
        frame_rate_duration_indicator := d.readU8 (34 + 8)
        frame_rate_timescale_indicator := d.readU8 (35 + 8)
        gusi_blob :=
          { raw := gusiRaw
            session_id := if 12 ≤ gusiRaw.length then leNat (gusiRaw.take 4) else 0
            recording_id := if 12 ≤ gusiRaw.length then leNat ((gusiRaw.drop 8).take 4) else 0 }
        f_is_subsample := d.readU8 (52 + 8)
        f_is_progressive := d.readU8 (53 + 8)
        f_is_progressive_indicator := d.readU8 (54 + 8)
        grp_no_indicator := d.readU8 (55 + 8)
        f_is_subsample_indicator := d.readU8 (56 + 8)
        blob :=
          { raw := blobRaw
            content_id_high := if 16 ≤ blobRaw.length then leNat (blobRaw.take 8) else 0
            content_id_low := if 16 ≤ blobRaw.length then leNat ((blobRaw.drop 8).take 8) else 0 } }

/-- The fields of the `grouped_ex_to_dict` JSON object relevant to the claims.
`frame_rate_fps` is `some q` for a JSON number `q` and `none` for JSON null;
the code's final `round(fps, 2)` and the remaining dictionary entries are
not modelled. -/
structure GroupedExDict where
  file_handle : Nat
  frame_rate_timescale : Nat
  frame_rate_duration : Nat
  frame_rate_fps : Option ℚ
  n_elems : Nat
  grp_no : Nat
  width : Nat
  height : Nat
deriving DecidableEq

/-- Embeds the `grouped_ex_to_dict` helper inside `GoproMDBParser.to_dict`:
`fps = timescale / duration if duration > 0 else 0`, always surfaced as a
number. -/
def groupedExToDict (rec : MdbGroupedEx) : GroupedExDict :=
  let fps : ℚ :=
    if 0 < rec.frame_rate_duration then
      (rec.frame_rate_timescale : ℚ) / (rec.frame_rate_duration : ℚ)
    else 0
  { file_handle := rec.file_handle
    frame_rate_timescale := rec.frame_rate_timescale
    frame_rate_duration := rec.frame_rate_duration
    frame_rate_fps := some fps
    n_elems := rec.n_elems
    grp_no := rec.grp_no
    width := rec.width
    height := rec.height }

/-- Expected `mdb_single_ex` record size (`GoproMDBParser.RECORD_SIZES`):
the scanner uses the `hero11+` table only when `schema_version == 'hero11+'`
and the `hero5` table otherwise. -/
def singleExpected : SchemaVersion → Nat
  | .hero11plus => 134
  | _ => 78

/-- Expected `mdb_grouped_ex` record size (`GoproMDBParser.RECORD_SIZES`). -/
def groupedExpected : SchemaVersion → Nat
  | .hero11plus => 73
  | _ => 57

/-- Expected size selected by table id, as in `_scan_for_records`
(`'mdb_single_ex' if table_id == 3 else 'mdb_grouped_ex'`). -/
def expectedSize (sv : SchemaVersion) (tid : Nat) : Nat :=
  if tid = 3 then singleExpected sv else groupedExpected sv

/-- Slot starts of `_scan_for_records`:
`range(0x2C00, file_size - 128, 128)` for a file of `n` bytes. -/
def slotStarts (n : Nat) : List Nat :=
  (List.range (((n - 128) - 0x2C00 + 127) / 128)).map (fun k => 0x2C00 + 128 * k)

/-- The slot-acceptance test of `_scan_for_records`:
`kind == 0 and table_id in [3, 4] and 40 < record_size < 200` and
`abs(record_size - expected) < 20`. -/
def slotAccept (b : Buf) (sv : SchemaVersion) (s : Nat) : Bool :=
  (b.byte s &&& 0x0F == 0) &&
    (b.readU16 (s + 2) == 3 || b.readU16 (s + 2) == 4) &&
    decide (40 < b.readU32 (s + 4)) && decide (b.readU32 (s + 4) < 200) &&
    decide (((b.readU32 (s + 4) : Int) - (expectedSize sv (b.readU16 (s + 2)) : Int)).natAbs < 20)

/-- Embeds `_scan_for_records`: the accepted slots, each recorded as
`(table_id, record_size, slot_start)`.  (The Python code stores the header
and the byte slice; the slice is recovered from the slot start by
`recordSlice`.) -/
def rawRecords (b : Buf) (sv : SchemaVersion) : List (Nat × Nat × Nat) :=
  (slotStarts b.size).filterMap (fun s =>
    if slotAccept b sv s then some (b.readU16 (s + 2), b.readU32 (s + 4), s) else none)

/-- The record body handed to the decoders:
`data[slot_start + 16 : min(slot_start + 128 + 64, file_size)]`. -/
def recordSlice (b : Buf) (s : Nat) : Buf :=
  b.slice (s + 16) (min (s + 192) b.size)

/-- Embeds the `table_id == 3` branch of `_find_and_parse_records`. -/
def singlesList (b : Buf) (sv : SchemaVersion) : List MdbSingleEx :=
  (rawRecords b sv).filterMap (fun r =>
    if r.1 = 3 then parseSingleExData (recordSlice b r.2.2) else none)

/-- Embeds the `table_id == 4` branch of `_find_and_parse_records`. -/
def groupedList (b : Buf) (sv : SchemaVersion) : List MdbGroupedEx :=
  (rawRecords b sv).filterMap (fun r =>
    if r.1 = 4 then parseGroupedExData (recordSlice b r.2.2) else none)

/-- `singles_ex` produced by the full pipeline (schema detected from the
buffer, as `parse` does before `_find_and_parse_records`). -/
def singlesExOf (b : Buf) : List MdbSingleEx :=
  singlesList b (detectSchema b)

/-- `grouped_ex` produced by the full pipeline. -/
def groupedExOf (b : Buf) : List MdbGroupedEx :=
  groupedList b (detectSchema b)

/-- The 12-byte magic `00 FF×10 07` of `_parse_header`. -/
def magicBytes : List Nat :=
  [0x00, 0xFF, 0xFF, 0xFF, 0xFF, 0xFF, 0xFF, 0xFF, 0xFF, 0xFF, 0xFF, 0x07]

/-- Embeds `_parse_header`: `data[:12] == expected_magic` (false on files
shorter than 12 bytes, where the slice is shorter than the magic). -/
def headerValid (b : Buf) : Bool :=
  decide (12 ≤ b.size) && matchAt b magicBytes 0

/-- The decoded result of `GoproMDBParser.parse` (the fields relevant to the
claims; the config-block and MCO-version extraction only feed diagnostic
output and are not modelled). -/
structure ParsedDb where
  header_valid : Bool
  schema_version : SchemaVersion
  singles_ex : List MdbSingleEx
  grouped_ex : List MdbGroupedEx
deriving DecidableEq

/-- Embeds `GoproMDBParser.parse`: refuse (return `none`, the CLI then exits
with code 1) exactly when `file_size < HEADER_SIZE + 0x100 = 0x500`;
otherwise decode. -/
def parse (b : Buf) : Option ParsedDb :=
  if b.size < 0x400 + 0x100 then none
  else some
    { header_valid := headerValid b
      schema_version := detectSchema b
      singles_ex := singlesExOf b
      grouped_ex := groupedExOf b }

/-- Embeds `MCOPageHeader` from `mco_page_analyzer.py` (the 4 alignment
bytes are unused by the modelled analyses and omitted). -/
structure MCOPageHeader where
  kind : Nat := 0
  extraflags : Nat := 0
  user : Nat := 0
deriving DecidableEq

/-- `MCOPageHeader.page_type`: the low 4 bits of the kind byte. -/
def MCOPageHeader.pageType (h : MCOPageHeader) : Nat :=
  h.kind &&& 0x0F

/-- `MCOPageHeader.page_flags`: the high 4 bits of the kind byte. -/
def MCOPageHeader.pageFlags (h : MCOPageHeader) : Nat :=
  h.kind &&& 0xF0

/-- Embeds `MCOPage` (offset and header; the body bytes are only used for
hex previews and omitted). -/
structure MCOPage where
  offset : Nat
  header : MCOPageHeader
deriving DecidableEq

/-- Embeds `MCOPageAnalyzer._scan_pages`: pages at offsets `0, ps, 2·ps, …`,
stopping (`break`) at the first page with fewer than 8 bytes of data, so the
scanned pages are exactly the stride offsets `o` with `o + 8 ≤ file_size`. -/
def scanPages (b : Buf) (ps : Nat) : List MCOPage :=
  (List.range (if b.size < 8 then 0 else (b.size - 8) / ps + 1)).map (fun k =>
    { offset := ps * k
      header :=
        { kind := b.byte (ps * k)
          extraflags := b.byte (ps * k + 1)
          user := b.byte (ps * k + 2) + 256 * b.byte (ps * k + 3) } })

/-- The `known_kinds` set of `MCOPageAnalyzer._identify_unknowns` (note:
14 is absent). -/
def knownKinds : List Nat :=
  [0, 1, 2, 3, 4, 5, 6, 7, 8, 10, 11, 12, 15]

/-- An entry of `MCOPageAnalyzer.unknowns` (offset together with the kind or
flags value of the dictionary the code appends; the hex/preview strings are
not modelled). -/
inductive PageAnomaly where
  | unknownKind (offset kind : Nat)
  | unusualFlags (offset flags : Nat)
deriving DecidableEq

/-- The anomaly entries contributed by one page in
`MCOPageAnalyzer._identify_unknowns` (kind check first, then flag check). -/
def pageAnomalies (p : MCOPage) : List PageAnomaly :=
  (if p.header.pageType ∉ knownKinds ∧ p.header.pageType ≠ 0xFF then
    [.unknownKind p.offset p.header.pageType]
  else []) ++
  (if p.header.pageFlags &&& 0xC0 ≠ 0 then
    [.unusualFlags p.offset p.header.pageFlags]
  else [])

/-- Embeds `MCOPageAnalyzer._identify_unknowns` over a scanned page list. -/
def identifyUnknowns (ps : List MCOPage) : List PageAnomaly :=
  ps.flatMap pageAnomalies

/-- One probe of `MCOPageAnalyzer._detect_page_size`: the header comes from
`data[offset:offset+8]` (`from_bytes` yields an all-zero header when fewer
than 8 bytes remain), and the probe is valid iff it passes the recognised
kind/flags/user test or the raw kind byte is `0xFF`/`0x00`. -/
def probeValid (b : Buf) (off : Nat) : Bool :=
  let rawKind := if off + 8 ≤ b.size then b.byte off else 0
  let user := if off + 8 ≤ b.size then b.byte (off + 2) + 256 * b.byte (off + 3) else 0
  let baseKind := rawKind &&& 0x0F
  (decide (baseKind ∈ knownKinds) &&
      (decide ((rawKind &&& 0xF0) ∈ ([0x00, 0x10, 0x20, 0x30] : List Nat)) || rawKind == 0xFF) &&
      (decide (user < 0x100) || user == 0xFFFF)) ||
    rawKind == 0xFF || rawKind == 0x00

/-- Probe offsets for candidate page size `ps`:
`range(ps, min(ps * 20, file_size), ps)`. -/
def probeOffsets (b : Buf) (ps : Nat) : List Nat :=
  (List.range ((min (ps * 20) b.size - ps + (ps - 1)) / ps)).map (fun k => ps + ps * k)

/-- The `valid_count - invalid_count` score of one candidate page size. -/
def pageScore (b : Buf) (ps : Nat) : Int :=
  let l := probeOffsets b ps
  let valid := l.countP (fun o => probeValid b o)
  (valid : Int) - ((l.length - valid : Nat) : Int)

/-- The analyzer's candidate page sizes (`COMMON_PAGE_SIZES`). -/
def commonPageSizes : List Nat :=
  [256, 512, 1024, 2048, 4096]

/-- Eligible candidates (`file_size >= ps * 4`) with their scores, in the
listed order. -/
def eligibleScores (b : Buf) : List (Nat × Int) :=
  (commonPageSizes.filter (fun ps => ps * 4 ≤ b.size)).map (fun ps => (ps, pageScore b ps))

/-- The selection loop of `_detect_page_size`: take a candidate only when
its score strictly exceeds the best so far. -/
def pickLoop : List (Nat × Int) → Nat → Int → Nat
  | [], best, _ => best
  | (ps, s) :: rest, best, bestScore =>
    if bestScore < s then pickLoop rest ps s else pickLoop rest best bestScore

/-- Embeds `MCOPageAnalyzer._detect_page_size` (initial best `1024` with
score `0`). -/
def detectPageSizeAnalyzer (b : Buf) : Nat :=
  pickLoop (eligibleScores b) 1024 0

/-- Maximum of the scores of a candidate list, seeded with `seed`. -/
def maxScoreFrom (seed : Int) (l : List (Nat × Int)) : Int :=
  l.foldl (fun a p => max a p.2) seed

/-- Modelled from the spec's words (as amended for claim C3): choose the
candidate with the highest `(valid − invalid)` score, ties broken in the
listed candidate order, defaulting to 1024 when no candidate scores
positively. -/
def specChoosePageSize (l : List (Nat × Int)) : Nat :=
  if maxScoreFrom 0 l ≤ 0 then 1024
  else
    match l.find? (fun p => p.2 == maxScoreFrom 0 l) with
    | some p => p.1
    | none => 1024

/-- Concrete G_OLD input: contains `"vtag"` at 0x100, no `"camera_model"`,
and one record slot at 0x2C00 (`kind 0`, `table_id 3`, `record_size 78`)
whose body carries the printable bytes `"HERO"` at unpacked offset 97. -/
def demoOldBuf : Buf where
  size := 11393
  byte := fun i =>
    if i = 0x100 then 118 else if i = 0x101 then 116
    else if i = 0x102 then 97 else if i = 0x103 then 103
    else if i = 11266 then 3
    else if i = 11268 then 78
    else if i = 11385 then 72 else if i = 11386 then 69
    else if i = 11387 then 82 else if i = 11388 then 79
    else 0

/-- Concrete input whose single slot at 0x2C00 has `table_id 3` and
`record_size 154 = 134 + 20`: exactly at the spec's claimed tolerance. -/
def boundaryBuf : Buf where
  size := 11393
  byte := fun i => if i = 11266 then 3 else if i = 11268 then 154 else 0

/-- Concrete input whose single slot at 0x2C00 has `table_id 3` and
`record_size 134` (accepted under the hero11+ sizes). -/
def acceptedBuf : Buf where
  size := 11393
  byte := fun i => if i = 11266 then 3 else if i = 11268 then 134 else 0

/-- Concrete input on which the page-size detector picks 4096: every probe
byte is the invalid `0x4F` except the multiples of 4096, which are `0x00`. -/
def pageSizeBuf : Buf where
  size := 16384
  byte := fun i => if i = 4096 ∨ i = 8192 ∨ i = 12288 then 0 else 0x4F

/-- Concrete input with a STRING_EXT page: two 1024-byte pages, the second
with kind byte `0x0E` (kind 14). -/
def stringExtBuf : Buf where
  size := 2048
  byte := fun i => if i = 1024 then 14 else 0

/-- Concrete 3-byte buffer `[1, 2, 3]` for the byte-reader witnesses. -/
def tinyBuf : Buf where
  size := 3
  byte := fun i => i + 1

/-- Concrete 7-byte on-disk datetime: year 7 (= 1987), month 12, day 31,
minute 45, hour 13, second 59. -/
def dtBuf : Buf where
  size := 7
  byte := fun i =>
    if i = 0 then 7 else if i = 2 then 12 else if i = 3 then 31
    else if i = 4 then 45 else if i = 5 then 13 else if i = 6 then 59
    else 0

/-- A grouped_ex record with `frame_rate_duration = 0` (timescale 30000). -/
def zeroDurationRec : MdbGroupedEx :=
  { frame_rate_timescale := 30000, frame_rate_duration := 0 }

/-- A grouped_ex record with `frame_rate_duration = 1000`, timescale 30000. -/
def normalDurationRec : MdbGroupedEx :=
  { frame_rate_timescale := 30000, frame_rate_duration := 1000 }

theorem mem_slotStarts {n s : Nat} :
    s ∈ slotStarts n ↔ ∃ k, s = 0x2C00 + 128 * k ∧ s + 128 < n := by
  simp only [slotStarts, List.mem_map, List.mem_range]
  constructor
  · rintro ⟨k, hk, rfl⟩
    exact ⟨k, rfl, by omega⟩
  · rintro ⟨k, rfl, h⟩
    exact ⟨k, by omega, rfl⟩

theorem pageType_lt_16 (h : MCOPageHeader) : h.pageType < 16 := by
  have := Nat.and_le_right (n := h.kind) (m := 0x0F)
  simp only [MCOPageHeader.pageType]
  omega

theorem unknown_cond_iff :
    ∀ n, n < 16 → ((n ∉ knownKinds ∧ n ≠ 0xFF) ↔ (n = 9 ∨ n = 13 ∨ n = 14)) := by
  decide

theorem maxScoreFrom_cons (seed : Int) (p : Nat × Int) (l : List (Nat × Int)) :
    maxScoreFrom seed (p :: l) = maxScoreFrom (max seed p.2) l := rfl

theorem le_maxScoreFrom (seed : Int) (l : List (Nat × Int)) : seed ≤ maxScoreFrom seed l := by
  induction l generalizing seed with
  | nil => simp [maxScoreFrom]
  | cons p t ih => exact le_trans (le_max_left _ _) (ih (max seed p.2))

theorem maxScoreFrom_attained (seed : Int) (l : List (Nat × Int))
    (h : seed < maxScoreFrom seed l) : ∃ q ∈ l, q.2 = maxScoreFrom seed l := by
  induction l generalizing seed with
  | nil => simp only [maxScoreFrom, List.foldl_nil] at h; omega
  | cons p t ih =>
    rw [maxScoreFrom_cons] at h ⊢
    by_cases hc : max seed p.2 < maxScoreFrom (max seed p.2) t
    · obtain ⟨q, hq, hq2⟩ := ih (max seed p.2) hc
      exact ⟨q, List.mem_cons_of_mem _ hq, hq2⟩
    · have h1 : maxScoreFrom (max seed p.2) t = max seed p.2 :=
        le_antisymm (by omega) (le_maxScoreFrom _ _)
      rcases le_or_lt p.2 seed with hle | hlt
      · rw [max_eq_left hle] at h1
        omega
      · refine ⟨p, List.mem_cons_self _ _, ?_⟩
        rw [h1, max_eq_right (le_of_lt hlt)]

theorem pickLoop_spec (l : List (Nat × Int)) : ∀ (best : Nat) (bs : Int),
    pickLoop l best bs =
      if maxScoreFrom bs l ≤ bs then best
      else ((l.find? (fun p => p.2 == maxScoreFrom bs l)).map Prod.fst).getD best := by
  induction l with
  | nil => intro best bs; simp [pickLoop, maxScoreFrom]
  | cons p t ih =>
    intro best bs
    obtain ⟨ps, s⟩ := p
    rw [maxScoreFrom_cons]
    simp only [pickLoop]
    by_cases hgt : bs < s
    · rw [if_pos hgt, ih ps s, max_eq_right (le_of_lt hgt)]
      have hsM : s ≤ maxScoreFrom s t := le_maxScoreFrom s t
      rw [if_neg (by omega : ¬ maxScoreFrom s t ≤ bs)]
      by_cases hseq : s = maxScoreFrom s t
      · rw [if_pos (by omega : maxScoreFrom s t ≤ s)]
        rw [List.find?_cons_of_pos _ (by simp [← hseq])]
        simp
      · rw [if_neg (by omega : ¬ maxScoreFrom s t ≤ s)]
        rw [List.find?_cons_of_neg _ (by simp [hseq])]
        have hlt : s < maxScoreFrom s t := lt_of_le_of_ne hsM hseq
        obtain ⟨q, hq, hq2⟩ := maxScoreFrom_attained s t hlt
        have : (t.find? (fun p => p.2 == maxScoreFrom s t)).isSome := by
          rw [List.find?_isSome]
          exact ⟨q, hq, by simp [hq2]⟩
        obtain ⟨q2, hq2'⟩ := Option.isSome_iff_exists.mp this
        rw [hq2']
        simp
    · rw [if_neg hgt, ih best bs, max_eq_left (by omega : s ≤ bs)]
      by_cases hMle : maxScoreFrom bs t ≤ bs
      · rw [if_pos hMle, if_pos hMle]
      · rw [if_neg hMle, if_neg hMle]
        rw [List.find?_cons_of_neg _ (by simp; omega)]

theorem pickLoop_mem (l : List (Nat × Int)) : ∀ (best : Nat) (bs : Int),
    pickLoop l best bs = best ∨ ∃ p ∈ l, pickLoop l best bs = p.1 := by
  induction l with
  | nil => intro best bs; exact Or.inl rfl
  | cons p t ih =>
    intro best bs
    obtain ⟨ps, s⟩ := p
    simp only [pickLoop]
    by_cases hgt : bs < s
    · rw [if_pos hgt]
      rcases ih ps s with h | ⟨q, hq, hq2⟩
      · exact Or.inr ⟨(ps, s), List.mem_cons_self _ _, h⟩
      · exact Or.inr ⟨q, List.mem_cons_of_mem _ hq, hq2⟩
    · rw [if_neg hgt]
      rcases ih best bs with h | ⟨q, hq, hq2⟩
      · exact Or.inl h
      · exact Or.inr ⟨q, List.mem_cons_of_mem _ hq, hq2⟩

theorem length_filterMap_eq_length_filter {α β : Type} (l : List α) (f : α → Option β)
    (p : α → Bool) (h : ∀ a ∈ l, (f a).isSome = p a) :
    (l.filterMap f).length = (l.filter p).length := by
  induction l with
  | nil => rfl
  | cons a t ih =>
    have ha := h a (List.mem_cons_self a t)
    have ht := ih (fun x hx => h x (List.mem_cons_of_mem a hx))
    rw [List.filterMap_cons, List.filter_cons]
    cases hfa : f a with
    | none =>
      rw [hfa] at ha
      simp only [Option.isSome_none] at ha
      rw [← ha]
      simpa using ht
    | some bb =>
      rw [hfa] at ha
      simp only [Option.isSome_some] at ha
      rw [← ha]
      simpa using ht

/-- C4 (amended): for every decoded grouped_ex record, when
`frame_rate_duration = 0` the surfaced fps value is the JSON number 0 (not
null), and fps is computed as `timescale / duration` exactly when
`frame_rate_duration > 0`. -/
theorem c4_fps_zero_duration (rec : MdbGroupedEx) :
    (rec.frame_rate_duration = 0 → (groupedExToDict rec).frame_rate_fps = some 0) ∧
    (0 < rec.frame_rate_duration →
      (groupedExToDict rec).frame_rate_fps =
        some ((rec.frame_rate_timescale : ℚ) / (rec.frame_rate_duration : ℚ))) := by
  unfold groupedExToDict
  constructor
  · intro h
    simp [h]
  · intro h
    simp [h]

/-- C4 counterexample: a grouped_ex record with `frame_rate_duration = 0`
surfaces fps as the number 0, not as an absent (null) value, contradicting
the claim. -/
theorem c4_counterexample :
    (groupedExToDict zeroDurationRec).frame_rate_fps = some 0 ∧
    (groupedExToDict zeroDurationRec).frame_rate_fps ≠ none := by
  decide

/-- C4 witness: the amended theorem applied to concrete records. -/
theorem c4_witness :
    (groupedExToDict zeroDurationRec).frame_rate_fps = some 0 ∧
    (groupedExToDict normalDurationRec).frame_rate_fps = some 30 := by
  constructor
  · exact (c4_fps_zero_duration zeroDurationRec).1 rfl
  · rw [(c4_fps_zero_duration normalDurationRec).2 (by decide)]
    norm_num [normalDurationRec]

/-- C6: `parse` refuses (returns `none`, which the CLI turns into exit code
1) exactly the inputs shorter than 0x500 bytes; a refused input yields no
decoded records, and no input of length ≥ 0x500 is refused on size grounds. -/
theorem c6_parse_refusal (b : Buf) : parse b = none ↔ b.size < 0x500 := by
  unfold parse
  split
  · rename_i h
    simp only [true_iff]
    omega
  · rename_i h
    constructor
    · intro hc
      exact Option.noConfusion hc
    · intro hc
      exact absurd hc (by omega)

/-- C7: decoding a 7-byte on-disk datetime reads year as the little-endian
u16 at byte 0, month at byte 2, day at byte 3, minute at byte 4, hour at
byte 5, second at byte 6 (minute precedes hour); whenever the stored year
is positive the surfaced `actual_year` is `year + 1980`, and a stored year
of 0 yields an absent formatted value. -/
theorem c7_datetime :
    (∀ (b : Buf) (off : Nat), off + 7 ≤ b.size →
      (readDatetimeFromBuffer b off).dt.year = b.readU16 off ∧
      (readDatetimeFromBuffer b off).dt.month = b.byte (off + 2) ∧
      (readDatetimeFromBuffer b off).dt.day = b.byte (off + 3) ∧
      (readDatetimeFromBuffer b off).tm.min = b.byte (off + 4) ∧
      (readDatetimeFromBuffer b off).tm.hour = b.byte (off + 5) ∧
      (readDatetimeFromBuffer b off).tm.second = b.byte (off + 6)) ∧
    (∀ d : DateTime, 0 < d.dt.year →
      (datetimeToDict d).actual_year = d.dt.year + 1980) ∧
    (∀ d : DateTime, d.dt.year = 0 → (datetimeToDict d).formatted = none) := by
  refine ⟨?_, ?_, ?_⟩
  · intro b off h
    unfold readDatetimeFromBuffer
    rw [if_pos h]
    refine ⟨?_, rfl, rfl, rfl, rfl, rfl⟩
    unfold Buf.readU16
    rw [if_pos (by omega)]
  · intro d h
    unfold datetimeToDict
    simp [h]
  · intro d h
    unfold datetimeToDict
    simp [h]

/-- C7 witness: the theorem applied to the concrete `dtBuf` datetime and to
a datetime with year 0. -/
theorem c7_witness :
    (readDatetimeFromBuffer dtBuf 0).dt.year = dtBuf.readU16 0 ∧
    (readDatetimeFromBuffer dtBuf 0).tm.min = dtBuf.byte 4 ∧
    (datetimeToDict (readDatetimeFromBuffer dtBuf 0)).actual_year = 1987 ∧
    (datetimeToDict { dt := { year := 0, month := 1, day := 2 }, tm := {} }).formatted
      = none := by
  obtain ⟨h1, -, -, h4, -, -⟩ := c7_datetime.1 dtBuf 0 (by decide)
  refine ⟨h1, h4, ?_, c7_datetime.2.2 _ rfl⟩
  rw [c7_datetime.2.1 (readDatetimeFromBuffer dtBuf 0) (by decide)]
  decide

/-- C9: applying `decode_file_handle` to any handle whose byte 4 is `dir ≤
255` and whose low 16 bits are `fn ≤ 9999` yields the 3-digit zero-padded
directory followed by `GOPRO`, the file number, byte 7 as `type_flag`, and
the estimated path `<dir>/GX0<fn:04d>.MP4`; hence encode-then-decode
recovers `(dir, fn)`. -/
theorem c9_decode_file_handle (fh dir fn : Nat) (hdir : dir ≤ 255) (hfn : fn ≤ 9999)
    (h4 : (fh >>> 32) &&& 0xFF = dir) (h16 : fh &&& 0xFFFF = fn) :
    decodeFileHandle fh =
      { directory := padNum 3 dir ++ "GOPRO"
        file_number := fn
        type_flag := (fh >>> 56) &&& 0xFF
        estimated_path := padNum 3 dir ++ "GOPRO/" ++ ("GX" ++ toString 0 ++ padNum 4 fn ++ ".MP4") } := by
  unfold decodeFileHandle
  rw [h4, h16]

/-- C9 witness: the theorem applied to the concrete handle with byte 7 = 1,
byte 4 = 100 and low 16 bits = 1, yielding directory `100GOPRO` and path
`100GOPRO/GX00001.MP4`. -/
theorem c9_witness :
    decodeFileHandle 0x0100006400000001 =
      { directory := "100GOPRO"
        file_number := 1
        type_flag := 1
        estimated_path := "100GOPRO/GX00001.MP4" } := by
  rw [c9_decode_file_handle 0x0100006400000001 100 1 (by norm_num) (by norm_num)
    (by decide) (by decide)]
  decide

/-- C8: each primitive reader returns the little-endian value of the bytes
`[off, off+W)` when `off + W ≤ size`, the type's zero otherwise, and its
result depends only on the bytes below `size` (so no index at or past the
buffer length is ever consulted). -/
theorem c8_byte_readers :
    (∀ (b : Buf) (off : Nat),
      (off + 1 ≤ b.size → b.readU8 off = b.byte off) ∧
      (b.size < off + 1 → b.readU8 off = 0) ∧
      (off + 2 ≤ b.size → b.readU16 off = b.byte off + 256 * b.byte (off + 1)) ∧
      (b.size < off + 2 → b.readU16 off = 0) ∧
      (off + 4 ≤ b.size → b.readU32 off =
        b.byte off + 256 * b.byte (off + 1) + 65536 * b.byte (off + 2) +
          16777216 * b.byte (off + 3)) ∧
      (b.size < off + 4 → b.readU32 off = 0) ∧
      (off + 8 ≤ b.size → b.readU64 off =
        b.byte off + 256 * b.byte (off + 1) + 65536 * b.byte (off + 2) +
          16777216 * b.byte (off + 3) + 4294967296 * b.byte (off + 4) +
          1099511627776 * b.byte (off + 5) + 281474976710656 * b.byte (off + 6) +
          72057594037927936 * b.byte (off + 7)) ∧
      (b.size < off + 8 → b.readU64 off = 0) ∧
      (off + 4 ≤ b.size → b.readI32 off =
        (if b.byte off + 256 * b.byte (off + 1) + 65536 * b.byte (off + 2) +
            16777216 * b.byte (off + 3) < 2147483648 then
          ((b.byte off + 256 * b.byte (off + 1) + 65536 * b.byte (off + 2) +
            16777216 * b.byte (off + 3) : Nat) : Int)
        else ((b.byte off + 256 * b.byte (off + 1) + 65536 * b.byte (off + 2) +
            16777216 * b.byte (off + 3) : Nat) : Int) - 4294967296)) ∧
      (b.size < off + 4 → b.readI32 off = 0) ∧
      (off + 4 ≤ b.size → b.readF32bits off = b.readU32 off) ∧
      (b.size < off + 4 → b.readF32bits off = 0) ∧
      (off + 8 ≤ b.size → b.readF64bits off = b.readU64 off) ∧
      (b.size < off + 8 → b.readF64bits off = 0)) ∧
    (∀ b bb : Buf, b.size = bb.size → (∀ i, i < b.size → b.byte i = bb.byte i) →
      ∀ off, b.readU8 off = bb.readU8 off ∧ b.readU16 off = bb.readU16 off ∧
        b.readU32 off = bb.readU32 off ∧ b.readU64 off = bb.readU64 off ∧
        b.readI32 off = bb.readI32 off ∧ b.readF32bits off = bb.readF32bits off ∧
        b.readF64bits off = bb.readF64bits off) := by
  constructor
  · intro b off
    refine ⟨?_, ?_, ?_, ?_, ?_, ?_, ?_, ?_, ?_, ?_, ?_, ?_, ?_, ?_⟩ <;>
      intro h <;>
      simp only [Buf.readU8, Buf.readU16, Buf.readU32, Buf.readU64, Buf.readI32,
        Buf.readF32bits, Buf.readF64bits] <;>
      first
        | (rw [if_pos (by omega)])
        | (rw [if_neg (by omega)])
  · intro b bb hs hb off
    have hu8 : b.readU8 off = bb.readU8 off := by
      simp only [Buf.readU8, hs]
      split
      · exact hb off (by omega)
      · rfl
    have hu16 : b.readU16 off = bb.readU16 off := by
      simp only [Buf.readU16, hs]
      split
      · rw [hb off (by omega), hb (off + 1) (by omega)]
      · rfl
    have hu32 : b.readU32 off = bb.readU32 off := by
      simp only [Buf.readU32, hs]
      split
      · rw [hb off (by omega), hb (off + 1) (by omega), hb (off + 2) (by omega),
          hb (off + 3) (by omega)]
      · rfl
    have hu64 : b.readU64 off = bb.readU64 off := by
      simp only [Buf.readU64, hs]
      split
      · rw [hb off (by omega), hb (off + 1) (by omega), hb (off + 2) (by omega),
          hb (off + 3) (by omega), hb (off + 4) (by omega), hb (off + 5) (by omega),
          hb (off + 6) (by omega), hb (off + 7) (by omega)]
      · rfl
    have hi32 : b.readI32 off = bb.readI32 off := by
      simp only [Buf.readI32, hs]
      split
      · rw [hb off (by omega), hb (off + 1) (by omega), hb (off + 2) (by omega),
          hb (off + 3) (by omega)]
      · rfl
    exact ⟨hu8, hu16, hu32, hu64, hi32, hu32, hu64⟩

/-- C8 witness: the theorem applied to the concrete 3-byte buffer
`[1, 2, 3]`: in-bounds u8/u16 reads return the little-endian values, the
out-of-bounds u32 read returns 0, and a buffer agreeing on the 3 in-range
bytes reads equal values. -/
theorem c8_witness :
    tinyBuf.readU8 2 = 3 ∧ tinyBuf.readU16 0 = 513 ∧ tinyBuf.readU32 0 = 0 ∧
    tinyBuf.readU16 0 = (Buf.mk 3 (fun i => if i < 3 then i + 1 else 99)).readU16 0 := by
  obtain ⟨-, -, h16, -, -, h32, -⟩ := (c8_byte_readers.1 tinyBuf 0)
  refine ⟨?_, ?_, h32 (by decide), ?_⟩
  · rw [(c8_byte_readers.1 tinyBuf 2).1 (by decide)]
    decide
  · rw [h16 (by decide)]
    decide
  · exact ((c8_byte_readers.2 tinyBuf (Buf.mk 3 (fun i => if i < 3 then i + 1 else 99))
      rfl (fun i hi => by
        show i + 1 = if i < 3 then i + 1 else 99
        rw [if_pos (show i < 3 from hi)]) 0).2.1)

/-- C1 (amended): for every buffer, schema generation, and 128-byte-aligned
slot offset in the scanned range from 0x2C00, the scanner accepts the slot
iff `kind_lo = 0`, `table_id ∈ {3,4}`, `40 < rec_size < 200`, and
`|rec_size − expected| < 20` (strictly; a slot whose `rec_size` differs
from `expected` by exactly 20 is rejected), where `expected` comes from the
per-generation size table. -/
theorem c1_scan_accept (b : Buf) (sv : SchemaVersion) (s : Nat)
    (halign : ∃ k, s = 0x2C00 + 128 * k) (hlt : s + 128 < b.size) :
    (∃ tid rs, (tid, rs, s) ∈ rawRecords b sv) ↔
      (b.byte s &&& 0x0F = 0 ∧
        (b.readU16 (s + 2) = 3 ∨ b.readU16 (s + 2) = 4) ∧
        40 < b.readU32 (s + 4) ∧ b.readU32 (s + 4) < 200 ∧
        ((b.readU32 (s + 4) : Int) - (expectedSize sv (b.readU16 (s + 2)) : Int)).natAbs
          < 20) := by
  obtain ⟨k, hk⟩ := halign
  have hmem : s ∈ slotStarts b.size := mem_slotStarts.mpr ⟨k, hk, hlt⟩
  unfold rawRecords
  constructor
  · rintro ⟨tid, rs, hin⟩
    rw [List.mem_filterMap] at hin
    obtain ⟨a, ha, hfa⟩ := hin
    by_cases hacc : slotAccept b sv a
    · rw [if_pos hacc] at hfa
      have heq := Option.some.inj hfa
      have has : a = s := congrArg (fun t => t.2.2) heq
      subst has
      simp only [slotAccept, Bool.and_eq_true, Bool.or_eq_true, beq_iff_eq,
        decide_eq_true_eq] at hacc
      exact ⟨hacc.1.1.1.1, hacc.1.1.1.2, hacc.1.1.2, hacc.1.2, hacc.2⟩
    · rw [if_neg hacc] at hfa
      exact Option.noConfusion hfa
  · rintro ⟨h0, h34, h40, h200, habs⟩
    have hacc : slotAccept b sv s := by
      simp only [slotAccept, Bool.and_eq_true, Bool.or_eq_true, beq_iff_eq,
        decide_eq_true_eq]
      exact ⟨⟨⟨⟨h0, h34⟩, h40⟩, h200⟩, habs⟩
    refine ⟨b.readU16 (s + 2), b.readU32 (s + 4), List.mem_filterMap.mpr ⟨s, hmem, ?_⟩⟩
    rw [if_pos hacc]

/-- C1 counterexample: on `boundaryBuf` the slot at 0x2C00 satisfies every
condition of the claim with `|rec_size − expected| = 20 ≤ 20` (kind 0,
table 3, `rec_size 154`, hero11+ expected 134), yet the scanner accepts
nothing — the code's tolerance is strict. -/
theorem c1_counterexample :
    boundaryBuf.byte 11264 &&& 0x0F = 0 ∧
    boundaryBuf.readU16 11266 = 3 ∧
    boundaryBuf.readU32 11268 = 154 ∧
    40 < (154 : Nat) ∧ (154 : Nat) < 200 ∧
    ((154 : Int) - (expectedSize .hero11plus 3 : Int)).natAbs ≤ 20 ∧
    11264 = 0x2C00 + 128 * 0 ∧ 11264 + 128 < boundaryBuf.size ∧
    rawRecords boundaryBuf .hero11plus = [] := by
  decide

/-- C1 witness: the amended theorem applied to `acceptedBuf` (table 3,
`rec_size 134`, hero11+) accepts the slot at 0x2C00. -/
theorem c1_witness :
    ∃ tid rs, (tid, rs, 11264) ∈ rawRecords acceptedBuf .hero11plus := by
  refine (c1_scan_accept acceptedBuf .hero11plus 11264 ⟨0, by norm_num⟩ (by decide)).mpr ?_
  decide

theorem rawRecords_slot_size {b : Buf} {sv : SchemaVersion} {tid rs s : Nat}
    (h : (tid, rs, s) ∈ rawRecords b sv) : 113 ≤ (recordSlice b s).size := by
  unfold rawRecords at h
  rw [List.mem_filterMap] at h
  obtain ⟨a, ha, hfa⟩ := h
  by_cases hacc : slotAccept b sv a
  · rw [if_pos hacc] at hfa
    have has : a = s := congrArg (fun t => t.2.2) (Option.some.inj hfa)
    subst has
    rw [mem_slotStarts] at ha
    obtain ⟨k, -, hlt⟩ := ha
    simp only [recordSlice, Buf.slice]
    omega
  · rw [if_neg hacc] at hfa
    exact Option.noConfusion hfa

/-- C10: every accepted record slot hands the decoders a body slice of at
least 113 bytes, so the decoders' short-input guards (`< 100` for
single_ex, `< 50` for grouped_ex) never fire, and every accepted slot
contributes exactly one decoded record to the corresponding output list. -/
theorem c10_slot_slices_safe (b : Buf) (sv : SchemaVersion) :
    (∀ tid rs s, (tid, rs, s) ∈ rawRecords b sv →
      113 ≤ (recordSlice b s).size ∧
      parseSingleExData (recordSlice b s) ≠ none ∧
      parseGroupedExData (recordSlice b s) ≠ none) ∧
    (singlesList b sv).length =
      ((rawRecords b sv).filter (fun r => r.1 == 3)).length ∧
    (groupedList b sv).length =
      ((rawRecords b sv).filter (fun r => r.1 == 4)).length := by
  have hsize : ∀ tid rs s, (tid, rs, s) ∈ rawRecords b sv →
      113 ≤ (recordSlice b s).size := fun _ _ _ h => rawRecords_slot_size h
  refine ⟨?_, ?_, ?_⟩
  · intro tid rs s h
    have h113 := hsize tid rs s h
    refine ⟨h113, ?_, ?_⟩
    · unfold parseSingleExData
      rw [if_neg (by omega)]
      exact Option.noConfusion
    · unfold parseGroupedExData
      rw [if_neg (by omega)]
      exact Option.noConfusion
  · unfold singlesList
    apply length_filterMap_eq_length_filter
    rintro ⟨tid, rs, s⟩ ha
    have h113 := hsize tid rs s ha
    by_cases h3 : tid = 3
    · simp only [h3, if_pos]
      unfold parseSingleExData
      rw [if_neg (by omega)]
      simp
    · simp only [if_neg h3]
      simp [h3]
  · unfold groupedList
    apply length_filterMap_eq_length_filter
    rintro ⟨tid, rs, s⟩ ha
    have h113 := hsize tid rs s ha
    by_cases h4 : tid = 4
    · simp only [h4, if_pos]
      unfold parseGroupedExData
      rw [if_neg (by omega)]
      simp
    · simp only [if_neg h4]
      simp [h4]

/-- C10 witness: on `acceptedBuf` with the hero11+ sizes, the accepted slot
at 0x2C00 gets a 113-byte-minimum slice and the decoded list lengths match
the accepted-slot counts. -/
theorem c10_witness :
    113 ≤ (recordSlice acceptedBuf 11264).size ∧
    (singlesList acceptedBuf .hero11plus).length =
      ((rawRecords acceptedBuf .hero11plus).filter (fun r => r.1 == 3)).length ∧
    (singlesList acceptedBuf .hero11plus).length = 1 := by
  refine ⟨((c10_slot_slices_safe acceptedBuf .hero11plus).1 3 134 11264 (by decide)).1,
    (c10_slot_slices_safe acceptedBuf .hero11plus).2.1, ?_⟩
  rw [(c10_slot_slices_safe acceptedBuf .hero11plus).2.1]
  decide

theorem parseSingleExData_fields (d : Buf) (r : MdbSingleEx)
    (h : parseSingleExData d = some r) :
    r.camera_model = readString d 97 30 2 ∧
    r.sub_model = readString d 128 16 2 ∧
    r.dir_no = d.readU16 (76 + 8) ∧
    r.grp_no = d.readU16 (64 + 8) ∧
    r.moment_cnt = d.readU16 (50 + 8) ∧
    r.total_tag_cnt = d.readU16 (74 + 8) ∧
    r.max_moment_score_bits = d.readF32bits (40 + 8) := by
  unfold parseSingleExData at h
  split at h
  · exact Option.noConfusion h
  · have := Option.some.inj h
    subst this
    exact ⟨rfl, rfl, rfl, rfl, rfl, rfl, rfl⟩

/-- C2 (amended): for every input whose detected generation is G_OLD
(`hero5to8`), the single_ex decoder applies the same G_NEW (hero11) offset
table — there is no substituted G_OLD table — so every decoded record's
`camera_model`, `sub_model`, `dir_no`, `grp_no`, `moment_cnt`,
`total_tag_cnt` and `max_moment_score` are read from the G_NEW unpacked
offsets of its slot body rather than being emitted as absent. -/
theorem c2_gold_uses_gnew_offsets (b : Buf) (hg : detectSchema b = .hero5to8) :
    ∀ r ∈ singlesExOf b, ∃ rs s,
      (3, rs, s) ∈ rawRecords b (detectSchema b) ∧
      parseSingleExData (recordSlice b s) = some r ∧
      r.camera_model = readString (recordSlice b s) 97 30 2 ∧
      r.sub_model = readString (recordSlice b s) 128 16 2 ∧
      r.dir_no = (recordSlice b s).readU16 (76 + 8) ∧
      r.grp_no = (recordSlice b s).readU16 (64 + 8) ∧
      r.moment_cnt = (recordSlice b s).readU16 (50 + 8) ∧
      r.total_tag_cnt = (recordSlice b s).readU16 (74 + 8) ∧
      r.max_moment_score_bits = (recordSlice b s).readF32bits (40 + 8) := by
  intro r hr
  unfold singlesExOf singlesList at hr
  rw [List.mem_filterMap] at hr
  obtain ⟨⟨tid, rs, s⟩, hmem, hval⟩ := hr
  dsimp only at hval
  split at hval
  · rename_i h3
    subst h3
    obtain ⟨f1, f2, f3, f4, f5, f6, f7⟩ := parseSingleExData_fields _ _ hval
    exact ⟨rs, s, hmem, hval, f1, f2, f3, f4, f5, f6, f7⟩
  · exact Option.noConfusion hval

set_option maxRecDepth 8000 in
set_option maxHeartbeats 4000000 in
/-- C2 counterexample: `demoOldBuf` is detected as G_OLD (`"vtag"` present,
no `"camera_model"`), yet its single decoded single_ex record carries
`camera_model = "HERO"` — read from the G_NEW offset 97 — instead of an
absent value. -/
theorem c2_counterexample :
    detectSchema demoOldBuf = .hero5to8 ∧
    (singlesExOf demoOldBuf).map (fun r => r.camera_model) = ["HERO"] ∧
    "HERO" ≠ "" := by
  refine ⟨by decide, by decide, by decide⟩

set_option maxRecDepth 8000 in
set_option maxHeartbeats 4000000 in
/-- C2 witness: the amended theorem applied to `demoOldBuf` and its decoded
record. -/
theorem c2_witness :
    ∃ rs s, (3, rs, s) ∈ rawRecords demoOldBuf (detectSchema demoOldBuf) ∧
      parseSingleExData (recordSlice demoOldBuf s) =
        some { camera_model := "HERO" } ∧
      ({ camera_model := "HERO" } : MdbSingleEx).camera_model =
        readString (recordSlice demoOldBuf s) 97 30 2 ∧
      ({ camera_model := "HERO" } : MdbSingleEx).sub_model =
        readString (recordSlice demoOldBuf s) 128 16 2 ∧
      ({ camera_model := "HERO" } : MdbSingleEx).dir_no =
        (recordSlice demoOldBuf s).readU16 (76 + 8) ∧
      ({ camera_model := "HERO" } : MdbSingleEx).grp_no =
        (recordSlice demoOldBuf s).readU16 (64 + 8) ∧
      ({ camera_model := "HERO" } : MdbSingleEx).moment_cnt =
        (recordSlice demoOldBuf s).readU16 (50 + 8) ∧
      ({ camera_model := "HERO" } : MdbSingleEx).total_tag_cnt =
        (recordSlice demoOldBuf s).readU16 (74 + 8) ∧
      ({ camera_model := "HERO" } : MdbSingleEx).max_moment_score_bits =
        (recordSlice demoOldBuf s).readF32bits (40 + 8) :=
  c2_gold_uses_gnew_offsets demoOldBuf (by decide) { camera_model := "HERO" } (by decide)

/-- C5 (amended): a scanned page is listed as an unknown-page-kind anomaly
iff its `kind_lo` lies outside the code's known set
`{0,…,8,10,11,12,15}`, i.e. iff `kind_lo ∈ {9, 13, 14}` — so STRING_EXT
(kind 14) pages ARE reported as unknown — and it is listed as a flags
anomaly exactly when `flags &&& 0xC0 ≠ 0`. -/
theorem c5_unknowns (b : Buf) (ps : Nat) :
    ∀ p ∈ scanPages b ps,
      ((PageAnomaly.unknownKind p.offset p.header.pageType
          ∈ identifyUnknowns (scanPages b ps)) ↔
        (p.header.pageType = 9 ∨ p.header.pageType = 13 ∨ p.header.pageType = 14)) ∧
      ((PageAnomaly.unusualFlags p.offset p.header.pageFlags
          ∈ identifyUnknowns (scanPages b ps)) ↔
        p.header.pageFlags &&& 0xC0 ≠ 0) := by
  intro p hp
  constructor
  · constructor
    · intro hmem
      rw [identifyUnknowns, List.mem_flatMap] at hmem
      obtain ⟨q, hq, hx⟩ := hmem
      unfold pageAnomalies at hx
      rw [List.mem_append] at hx
      rcases hx with hx | hx
      · split at hx
        · rename_i hc
          rw [List.mem_singleton] at hx
          obtain ⟨h1, h2⟩ := PageAnomaly.unknownKind.inj hx
          rw [h2]
          exact (unknown_cond_iff q.header.pageType (pageType_lt_16 _)).mp hc
        · exact absurd hx (List.not_mem_nil _)
      · split at hx
        · rw [List.mem_singleton] at hx
          exact PageAnomaly.noConfusion hx
        · exact absurd hx (List.not_mem_nil _)
    · intro h9
      rw [identifyUnknowns, List.mem_flatMap]
      refine ⟨p, hp, ?_⟩
      unfold pageAnomalies
      rw [List.mem_append]
      left
      rw [if_pos ((unknown_cond_iff p.header.pageType (pageType_lt_16 _)).mpr h9)]
      exact List.mem_singleton.mpr rfl
  · constructor
    · intro hmem
      rw [identifyUnknowns, List.mem_flatMap] at hmem
      obtain ⟨q, hq, hx⟩ := hmem
      unfold pageAnomalies at hx
      rw [List.mem_append] at hx
      rcases hx with hx | hx
      · split at hx
        · rw [List.mem_singleton] at hx
          exact PageAnomaly.noConfusion hx
        · exact absurd hx (List.not_mem_nil _)
      · split at hx
        · rename_i hc
          rw [List.mem_singleton] at hx
          obtain ⟨h1, h2⟩ := PageAnomaly.unusualFlags.inj hx
          rw [h2]
          exact hc
        · exact absurd hx (List.not_mem_nil _)
    · intro hf
      rw [identifyUnknowns, List.mem_flatMap]
      refine ⟨p, hp, ?_⟩
      unfold pageAnomalies
      rw [List.mem_append]
      right
      rw [if_pos hf]
      exact List.mem_singleton.mpr rfl

/-- C5 counterexample: on `stringExtBuf` the page at offset 1024 has kind
14 (STRING_EXT) and is listed as an unknown-page-kind anomaly,
contradicting the claim that kind 14 is in the known set. -/
theorem c5_counterexample :
    (⟨1024, ⟨14, 0, 0⟩⟩ : MCOPage) ∈ scanPages stringExtBuf 1024 ∧
    (⟨14, 0, 0⟩ : MCOPageHeader).pageType = 14 ∧
    PageAnomaly.unknownKind 1024 14 ∈ identifyUnknowns (scanPages stringExtBuf 1024) := by
  refine ⟨by decide, by decide, by decide⟩

/-- C5 witness: the amended theorem applied to the pages of `stringExtBuf`:
the kind-14 page is listed, and the flags-clean kind-0 page at offset 0 is
not listed as a flags anomaly. -/
theorem c5_witness :
    PageAnomaly.unknownKind 1024 14 ∈ identifyUnknowns (scanPages stringExtBuf 1024) ∧
    PageAnomaly.unusualFlags 0 ((⟨0, 0, 0⟩ : MCOPageHeader).pageFlags)
      ∉ identifyUnknowns (scanPages stringExtBuf 1024) := by
  constructor
  · exact (c5_unknowns stringExtBuf 1024 ⟨1024, ⟨14, 0, 0⟩⟩ (by decide)).1.mpr
      (Or.inr (Or.inr (by decide)))
  · intro hmem
    exact absurd ((c5_unknowns stringExtBuf 1024 ⟨0, ⟨0, 0, 0⟩⟩ (by decide)).2.mp hmem)
      (by decide)

/-- C3 (amended): the analyzer's page-size detector refines the spec-worded
chooser — highest `(valid − invalid)` score wins over the eligible
candidates, ties go to the earliest listed, 1024 is returned when no
candidate scores positively — and its result is always one of the
candidates `{256, 512, 1024, 2048, 4096}` (not `{256, 512, 1024, 2048}`:
4096 is a candidate too). -/
theorem c3_detect_page_size (b : Buf) :
    detectPageSizeAnalyzer b = specChoosePageSize (eligibleScores b) ∧
    (detectPageSizeAnalyzer b = 256 ∨ detectPageSizeAnalyzer b = 512 ∨
      detectPageSizeAnalyzer b = 1024 ∨ detectPageSizeAnalyzer b = 2048 ∨
      detectPageSizeAnalyzer b = 4096) := by
  constructor
  · unfold detectPageSizeAnalyzer specChoosePageSize
    rw [pickLoop_spec]
    by_cases h : maxScoreFrom 0 (eligibleScores b) ≤ 0
    · rw [if_pos h, if_pos h]
    · rw [if_neg h, if_neg h]
      cases hf : (eligibleScores b).find?
          (fun p => p.2 == maxScoreFrom 0 (eligibleScores b)) with
      | none => simp
      | some q => simp
  · rcases pickLoop_mem (eligibleScores b) 1024 0 with h | ⟨q, hq, hq2⟩
    · unfold detectPageSizeAnalyzer
      rw [h]
      tauto
    · unfold detectPageSizeAnalyzer
      rw [hq2]
      unfold eligibleScores at hq
      rw [List.mem_map] at hq
      obtain ⟨pps, hpps, rfl⟩ := hq
      rw [List.mem_filter] at hpps
      have hmem : pps ∈ commonPageSizes := hpps.1
      simp only [commonPageSizes, List.mem_cons, List.not_mem_nil, or_false] at hmem
      simpa using hmem

/-- C3 counterexample: on `pageSizeBuf` the detector returns 4096, which is
outside the claim's stated result set `{256, 512, 1024, 2048}`. -/
theorem c3_counterexample :
    detectPageSizeAnalyzer pageSizeBuf = 4096 ∧
    (4096 : Nat) ∉ ([256, 512, 1024, 2048] : List Nat) := by
  refine ⟨by decide, by decide⟩

end GoproMdb
